import Mathlib

/-!
Verification development for the Solana token-metadata REST API
(`src/api-server.ts`, `src/create-token.ts`).

The TypeScript code is shallowly embedded: JSON request/response values
become the inductive `JVal`; the effectful collaborators (file system,
network fetch, RPC calls, transaction sending) are modelled by explicit
environment records whose fields carry the outcome each external call
would produce; JavaScript truthiness, `typeof` and property access are
modelled by executable functions.
-/

namespace TokenApi

/-- JSON values, as produced by `express.json()` body parsing and by
`response.json()` in the metadata fetcher. -/
inductive JVal where
  | jNull
  | jBool (b : Bool)
  | jNum (n : Int)
  | jStr (s : String)
  | jArr (elems : List JVal)
  | jObj (fields : List (String × JVal))

/-- JavaScript truthiness of a JSON value (`!v` in the handlers negates
this). `NaN` does not arise from parsed JSON, so numbers are modelled
by `Int`. -/
def jsTruthy : JVal → Bool
  | .jNull => false
  | .jBool b => b
  | .jNum n => n != 0
  | .jStr s => !s.isEmpty
  | .jArr _ => true
  | .jObj _ => true

/-- Truthiness of a possibly-absent request-body field
(`undefined` is falsy). -/
def fieldTruthy : Option JVal → Bool
  | none => false
  | some v => jsTruthy v

/-- JavaScript `typeof` on a JSON value (`typeof null` is `"object"`,
and arrays are `"object"` as well). -/
def typeOf : JVal → String
  | .jNull => "object"
  | .jBool _ => "boolean"
  | .jNum _ => "number"
  | .jStr _ => "string"
  | .jArr _ => "object"
  | .jObj _ => "object"

/-- `typeof` of a possibly-absent value (`typeof undefined = "undefined"`). -/
def typeOfOpt : Option JVal → String
  | none => "undefined"
  | some v => typeOf v

/-- JavaScript property access `v.k` on a JSON value: throws a
`TypeError` on `null`, looks the key up on objects, and yields
`undefined` on every other JSON value. -/
def jget (v : JVal) (k : String) : Except String (Option JVal) :=
  match v with
  | .jNull => .error ("Cannot read properties of null (reading \x27" ++ k ++ "\x27)")
  | .jObj fields => .ok (fields.lookup k)
  | _ => .ok none

/-- JavaScript whitespace as observed by `String.prototype.trim`
(the ASCII portion: space, tab, LF, CR, VT, FF; exotic Unicode space
separators are not modelled). -/
def jsWhitespace (c : Char) : Bool :=
  c = ' ' || c = '\t' || c = '\n' || c = '\r' || c.toNat = 11 || c.toNat = 12

/-- JavaScript `s.trim()`: strip leading and trailing whitespace. -/
def jsTrim (s : String) : String :=
  String.mk (((s.toList.dropWhile jsWhitespace).reverse.dropWhile jsWhitespace).reverse)

/-- Substring occurrence test on character lists. -/
def includesAux (pat : List Char) : List Char → Bool
  | [] => pat.isEmpty
  | c :: t => pat.isPrefixOf (c :: t) || includesAux pat t

/-- JavaScript `hay.includes(pat)`: substring test. -/
def includes (hay pat : String) : Bool :=
  includesAux pat.toList hay.toList

/-! ## Model of the WHATWG `URL` constructor, as observed by `isValidUrl`

`isValidUrl` (src/api-server.ts lines 40-47) calls `new URL(urlString)`
and inspects `url.protocol`. The constructor is a platform builtin; it is
modelled here to the depth `isValidUrl` observes: leading/trailing
C0-control-or-space stripping, tab/newline removal, scheme parsing
(`alpha (alphanum|+|-|.)*` followed by `:`, lower-cased), and the
requirement that special schemes other than `file` have a non-empty host. -/

/-- ASCII alphabetic character. -/
def isAsciiAlpha (c : Char) : Bool :=
  (97 ≤ c.toNat && c.toNat ≤ 122) || (65 ≤ c.toNat && c.toNat ≤ 90)

/-- Characters allowed in a URL scheme after the first one. -/
def isSchemeChar (c : Char) : Bool :=
  isAsciiAlpha c || c.isDigit || c = '+' || c = '-' || c = '.'

/-- Split `scheme ":" rest` off a character list; fails when no `:`
terminated scheme is present. -/
def takeScheme : List Char → Option (List Char × List Char)
  | [] => none
  | c :: rest =>
    if c = ':' then some ([], rest)
    else if isSchemeChar c then
      match takeScheme rest with
      | some (sch, r) => some (c :: sch, r)
      | none => none
    else none

/-- The schemes the WHATWG standard calls special. -/
def specialSchemes : List String := ["ftp", "file", "http", "https", "ws", "wss"]

/-- Characters that terminate the host component. -/
def hostTerminator (c : Char) : Bool :=
  c = '/' || c = '\\' || c = '?' || c = '#'

/-- Protocol (scheme with trailing colon) that `new URL(input).protocol`
would report, or `none` when the constructor throws. -/
def urlProtocol (input : String) : Option String :=
  let stripped :=
    ((input.toList.dropWhile (fun c => c.toNat ≤ 32)).reverse.dropWhile
      (fun c => c.toNat ≤ 32)).reverse
  let cleaned := stripped.filter (fun c => c ≠ '\t' && c ≠ '\n' && c ≠ '\r')
  match cleaned with
  | [] => none
  | c :: _ =>
    if !isAsciiAlpha c then none
    else
      match takeScheme cleaned with
      | none => none
      | some (sch, rest) =>
        let scheme := String.mk (sch.map Char.toLower)
        if specialSchemes.contains scheme && scheme ≠ "file" then
          let afterSlashes := rest.dropWhile (fun c => c = '/' || c = '\\')
          let host := afterSlashes.takeWhile (fun c => !hostTerminator c)
          if host.isEmpty then none else some (scheme ++ ":")
        else some (scheme ++ ":")

/-- `isValidUrl` from src/api-server.ts lines 40-47: `new URL` must
succeed and report protocol `http:` or `https:`. -/
def isValidUrl (urlString : String) : Bool :=
  match urlProtocol urlString with
  | some protocol => protocol == "http:" || protocol == "https:"
  | none => false

example : isValidUrl "https://example.com/metadata.json" = true := by decide
example : isValidUrl "http://x" = true := by decide
example : isValidUrl "HTTP://EXAMPLE.COM" = true := by decide
example : isValidUrl "ftp://example.com" = false := by decide
example : isValidUrl "example.com/metadata.json" = false := by decide
example : isValidUrl "http://" = false := by decide
example : isValidUrl "" = false := by decide
example : isValidUrl "  https://a  " = true := by decide

/-! ## src/create-token.ts: metadata validation and token creation -/

/-- `TokenCreationResult` (src/create-token.ts lines 46-51); the optional
`mintSignerSecretKey` field is never populated by
`createTokenFromMetadataUrl`, so it is omitted. -/
structure TokenCreationResult where
  mintAddress : String
  transactionSignature : String
  explorerUrl : String
deriving Repr, DecidableEq

/-- A thrown JavaScript value: either an `Error` instance (carrying its
`message`) or any other value (the handlers treat those generically). -/
inductive Thrown where
  | err (msg : String)
  | nonError (s : String)
deriving Repr, DecidableEq

/-- Outcome of `fetch(metadataUrl)` followed by `response.json()`:
a non-2xx response (`response.ok` false), a JSON parse failure
(the rejection message of `response.json()`), or a parsed document. -/
inductive FetchOutcome where
  | httpError (status : Nat) (statusText : String)
  | jsonError (msg : String)
  | payload (doc : JVal)

/-- Outcomes of the external calls `createTokenFromMetadataUrl` performs,
in program order: loading the wallet keypair from disk (lines 73-74),
the metadata fetch (lines 78-83), and the rest of the minting pipeline
(`createMint`, metadata attachment and result assembly, lines 94-160),
abstracted as the value it returns or the value it throws. -/
structure CreateEnv where
  walletLoad : Except String Unit
  fetchOutcome : FetchOutcome
  mintOutcome : Except Thrown TokenCreationResult

/-- `validateMetadata` (src/create-token.ts lines 54-66). The source is a
single `&&` chain evaluated left to right; property access on `null`
(which has `typeof === 'object'`) throws a `TypeError`, hence the
`Except`. -/
def validateMetadata (metadata : JVal) : Except String Bool :=
  if typeOf metadata != "object" then .ok false else
  match jget metadata "name" with
  | .error m => .error m
  | .ok name =>
  if typeOfOpt name != "string" then .ok false else
  match jget metadata "symbol" with
  | .error m => .error m
  | .ok symbol =>
  if typeOfOpt symbol != "string" then .ok false else
  match jget metadata "description" with
  | .error m => .error m
  | .ok description =>
  if typeOfOpt description != "string" then .ok false else
  match jget metadata "image" with
  | .error m => .error m
  | .ok image =>
  if typeOfOpt image != "string" then .ok false else
  match name, symbol, description, image with
  | some (.jStr n), some (.jStr sy), some (.jStr d), some (.jStr i) =>
      .ok (jsTrim n != "" && jsTrim sy != "" && jsTrim d != "" && jsTrim i != "")
  | _, _, _, _ => .ok false

/-- The error message thrown when `validateMetadata` returns false
(src/create-token.ts line 85). -/
def invalidMetadataMsg : String :=
  "Invalid metadata: missing required fields (name, symbol, description, image)"

/-- `createTokenFromMetadataUrl` (src/create-token.ts lines 69-166),
as the pair of (value returned or thrown, whether `createMint` was
reached). The `catch` block (lines 162-165) only logs and rethrows, so
it is transparent. -/
def createTokenFromMetadataUrl (env : CreateEnv) :
    Except Thrown TokenCreationResult × Bool :=
  match env.walletLoad with
  | .error m => (.error (.err m), false)
  | .ok _ =>
    match env.fetchOutcome with
    | .httpError status statusText =>
        (.error (.err ("Failed to fetch metadata: " ++ toString status ++ " " ++ statusText)),
         false)
    | .jsonError m => (.error (.err m), false)
    | .payload doc =>
        match validateMetadata doc with
        | .error m => (.error (.err m), false)
        | .ok false => (.error (.err invalidMetadataMsg), false)
        | .ok true =>
            match env.mintOutcome with
            | .error t => (.error t, true)
            | .ok r => (.ok r, true)

/-! ## src/api-server.ts: the POST /create-token handler -/

/-- A JSON response body from the create-token endpoint: the success
envelope or the uniform `{success:false, error, details?}` envelope.
`details` is populated only when `NODE_ENV === 'development'`;
that mode is modelled as off, so handlers always pass `none`. -/
inductive CreateBody where
  | success (data : TokenCreationResult)
  | failure (error : String) (details : Option String)
deriving Repr, DecidableEq

/-- Outcome of one POST /create-token request: HTTP status, JSON body,
whether the handler invoked `createTokenFromMetadataUrl` (line 85), and
whether the pipeline inside it reached `createMint`. -/
structure CreateOutcome where
  status : Nat
  body : CreateBody
  createCalled : Bool
  mintReached : Bool
deriving Repr, DecidableEq

/-- Status code selection of the create-token `catch` block
(src/api-server.ts lines 100-111): substring matching on the message of
a thrown `Error`. -/
def createErrorStatus (msg : String) : Nat :=
  if includes msg "Failed to fetch metadata" then 400
  else if includes msg "Invalid metadata" then 400
  else if includes msg "JSON" then 400
  else 500

/-- The POST /create-token handler (src/api-server.ts lines 55-119):
falsy check, `typeof` check and `isValidUrl` check on `metadataUrl`
(each answering 400), then the call to `createTokenFromMetadataUrl`,
whose thrown errors the `catch` block maps through
`createErrorStatus`. -/
def createTokenHandler (metadataUrl : Option JVal) (env : CreateEnv) : CreateOutcome :=
  if !fieldTruthy metadataUrl then
    { status := 400, body := .failure "Missing required parameter: metadataUrl" none,
      createCalled := false, mintReached := false }
  else
    match metadataUrl with
    | some (.jStr u) =>
      if !isValidUrl u then
        { status := 400,
          body := .failure "Invalid URL format. URL must start with http:// or https://" none,
          createCalled := false, mintReached := false }
      else
        match createTokenFromMetadataUrl env with
        | (.ok r, reached) =>
            { status := 200, body := .success r, createCalled := true, mintReached := reached }
        | (.error (.err m), reached) =>
            { status := createErrorStatus m, body := .failure m none,
              createCalled := true, mintReached := reached }
        | (.error (.nonError _), reached) =>
            { status := 500, body := .failure "An unexpected error occurred" none,
              createCalled := true, mintReached := reached }
    | _ =>
      { status := 400, body := .failure "metadataUrl must be a string" none,
        createCalled := false, mintReached := false }

/-! ## Claim-side predicates (stated from the specification's wording) -/

/-- A malformed `metadataUrl` field in the sense of the specification:
missing, empty, not a string, or not an absolute http/https URL. -/
def malformedMetadataUrl (v : Option JVal) : Bool :=
  match v with
  | some (.jStr s) => s.isEmpty || !isValidUrl s
  | _ => true

/-- A required metadata field is present as a non-empty string
(specification wording for the metadata invariant). -/
def hasRequiredField (doc : JVal) (k : String) : Bool :=
  match doc with
  | .jObj fields =>
    match fields.lookup k with
    | some (.jStr s) => !s.isEmpty
    | _ => false
  | _ => false

/-- The document misses one of `name`, `symbol`, `description`, `image`
(or has it as something other than a non-empty string). -/
def missingRequiredField (doc : JVal) : Bool :=
  !(hasRequiredField doc "name" && hasRequiredField doc "symbol" &&
    hasRequiredField doc "description" && hasRequiredField doc "image")

/-- A required field holds a string whose trimmed value is non-empty
(the stricter criterion claimed for the implementation). -/
def fieldOkTrim (fields : List (String × JVal)) (k : String) : Bool :=
  match fields.lookup k with
  | some (.jStr s) => jsTrim s != ""
  | _ => false

/-- All four required fields hold strings with non-empty trimmed value. -/
def requiredOkTrim : JVal → Bool
  | .jObj fields =>
      fieldOkTrim fields "name" && fieldOkTrim fields "symbol" &&
      fieldOkTrim fields "description" && fieldOkTrim fields "image"
  | _ => false

/-! ## src/create-token.ts: revokeTokenAuthorities -/

/-- `RevokeAuthorityOptions` (src/create-token.ts lines 169-172); both
fields are optional in TypeScript, hence `Option Bool`. -/
structure RevokeAuthorityOptions where
  revokeMintAuthority : Option Bool
  revokeFreezeAuthority : Option Bool
deriving Repr, DecidableEq

/-- The two authority kinds passed to `createSetAuthorityInstruction`. -/
inductive AuthorityKind where
  | mintTokens
  | freezeAccount
deriving Repr, DecidableEq

/-- One `createSetAuthorityInstruction(mint, currentAuthority, kind, null)`
call queued on the transaction; `newAuthority = none` models the `null`
argument that revokes the authority. -/
structure SetAuthorityInstr where
  mint : String
  currentAuthority : String
  kind : AuthorityKind
  newAuthority : Option String
deriving Repr, DecidableEq

/-- The parsed mint account info the function reads
(`mintData.mintAuthority` / `mintData.freezeAuthority`): each authority
is a base58 public-key string or JSON `null`. -/
structure MintChainInfo where
  mintAuthority : Option String
  freezeAuthority : Option String
deriving Repr, DecidableEq

/-- `revoked` flags reported by `revokeTokenAuthorities`. -/
structure RevokedFlags where
  mintAuthority : Bool
  freezeAuthority : Bool
deriving Repr, DecidableEq

/-- The value `revokeTokenAuthorities` resolves with
(src/create-token.ts line 179): on the catch path only `success` and
`error` are present. -/
structure RevocationResult where
  success : Bool
  signatures : Option (List String)
  error : Option String
  revoked : Option RevokedFlags
deriving Repr, DecidableEq

/-- Observable trace of one `revokeTokenAuthorities` call: the
instructions added to the single `Transaction` object (line 200), how
many times `sendAndConfirmTransaction` was invoked, and the warning
messages logged for unrevocable authorities. -/
structure RevokeTrace where
  instructions : List SetAuthorityInstr
  sendAttempts : Nat
  warnings : List String
deriving Repr, DecidableEq

/-- Outcomes of the external calls `revokeTokenAuthorities` performs, in
program order: loading the wallet keypair (lines 182-183, yielding the
wallet public key as a string), `new PublicKey(mintAddress)` (line 186),
`getParsedAccountInfo` (line 186, `none` when the account is missing or
unparsed, which triggers the line-189 throw), and
`sendAndConfirmTransaction` (line 283, yielding a signature string or a
thrown error message). -/
structure RevokeEnv where
  walletLoad : Except String String
  pubkeyParse : Except String Unit
  mintInfo : Option MintChainInfo
  sendResult : Except String String

/-- JavaScript truthiness of a parsed authority field (a string or
`null`). -/
def authorityTruthy : Option String → Bool
  | none => false
  | some s => !s.isEmpty

/-- JavaScript truthiness of `options.revokeMintAuthority` /
`options.revokeFreezeAuthority` (`undefined` is falsy). -/
def optionsFlag : Option Bool → Bool
  | none => false
  | some b => b

/-- One authority branch of `revokeTokenAuthorities`: lines 203-234 for
the mint authority and lines 237-268 for the freeze authority are
textually identical up to the authority kind, so both are embedded by
this single function. Returns the instruction queued (if any), the
`revoked.<x>` flag, and the warnings logged. The optional
`mintSigner` is the public key derived from `mintSignerSecretKey`
(the key derivation is modelled by its resulting public key). -/
def authorityRevocationStep (mintAddress walletPubkey : String)
    (mintSigner : Option String) (currentAuthority : Option String)
    (requested : Option Bool) (kind : AuthorityKind) (label : String) :
    Option SetAuthorityInstr × Bool × List String :=
  if authorityTruthy currentAuthority && optionsFlag requested then
    let authorityKey : Option String :=
      if currentAuthority = some walletPubkey then some walletPubkey
      else
        match mintSigner with
        | some signerKey =>
            if currentAuthority = some signerKey then some signerKey else none
        | none => none
    match authorityKey with
    | some k => (some ⟨mintAddress, k, kind, none⟩, true, [])
    | none => (none, false, ["Warning: Cannot revoke " ++ label ++ " authority"])
  else (none, false, [])

/-- The mint-authority branch (src/create-token.ts lines 203-234). -/
def mintStepOf (mintAddress walletPubkey : String) (mintSigner : Option String)
    (options : RevokeAuthorityOptions) (mintData : MintChainInfo) :
    Option SetAuthorityInstr × Bool × List String :=
  authorityRevocationStep mintAddress walletPubkey mintSigner
    mintData.mintAuthority options.revokeMintAuthority .mintTokens "mint"

/-- The freeze-authority branch (src/create-token.ts lines 237-268). -/
def freezeStepOf (mintAddress walletPubkey : String) (mintSigner : Option String)
    (options : RevokeAuthorityOptions) (mintData : MintChainInfo) :
    Option SetAuthorityInstr × Bool × List String :=
  authorityRevocationStep mintAddress walletPubkey mintSigner
    mintData.freezeAuthority options.revokeFreezeAuthority .freezeAccount "freeze"

/-- Body of `revokeTokenAuthorities` after the mint info has been read
successfully (src/create-token.ts lines 196-289): assemble both
authority steps, submit all queued instructions in one transaction when
there is at least one, and report. -/
def revokeTokenAuthoritiesCore (mintAddress walletPubkey : String)
    (options : RevokeAuthorityOptions) (mintSigner : Option String)
    (mintData : MintChainInfo) (sendResult : Except String String) :
    RevocationResult × RevokeTrace :=
  let mintStep := mintStepOf mintAddress walletPubkey mintSigner options mintData
  let freezeStep := freezeStepOf mintAddress walletPubkey mintSigner options mintData
  let instructions := mintStep.1.toList ++ freezeStep.1.toList
  let revoked : RevokedFlags := ⟨mintStep.2.1, freezeStep.2.1⟩
  let warnings := mintStep.2.2 ++ freezeStep.2.2
  if instructions.length > 0 then
    match sendResult with
    | .ok sig =>
        (⟨true, some [sig], none, some revoked⟩, ⟨instructions, 1, warnings⟩)
    | .error m =>
        (⟨false, none, some m, none⟩, ⟨instructions, 1, warnings⟩)
  else
    (⟨true, some [], none, some revoked⟩, ⟨instructions, 0, warnings⟩)

/-- `revokeTokenAuthorities` (src/create-token.ts lines 175-294). Every
throw inside the `try` block is caught by the line-290 catch, which
resolves with `{success:false, error}`; the function never rejects. -/
def revokeTokenAuthorities (mintAddress : String)
    (options : RevokeAuthorityOptions) (mintSigner : Option String)
    (env : RevokeEnv) : RevocationResult × RevokeTrace :=
  match env.walletLoad with
  | .error m => (⟨false, none, some m, none⟩, ⟨[], 0, []⟩)
  | .ok walletPubkey =>
    match env.pubkeyParse with
    | .error m => (⟨false, none, some m, none⟩, ⟨[], 0, []⟩)
    | .ok _ =>
      match env.mintInfo with
      | none => (⟨false, none, some "Could not fetch mint information", none⟩, ⟨[], 0, []⟩)
      | some mintData =>
          revokeTokenAuthoritiesCore mintAddress walletPubkey options
            mintSigner mintData env.sendResult

/-- Ledger effect of one confirmed set-authority instruction (modelled
from the SPL token semantics: the targeted authority field is set to the
instruction's new authority). -/
def applyInstr (st : MintChainInfo) (i : SetAuthorityInstr) : MintChainInfo :=
  match i.kind with
  | .mintTokens => { st with mintAuthority := i.newAuthority }
  | .freezeAccount => { st with freezeAuthority := i.newAuthority }

/-- Ledger effect of a confirmed transaction: apply its instructions in
order; a transaction that was never sent or failed changes nothing. -/
def applyTransaction (st : MintChainInfo) (t : RevokeTrace) (sendOk : Bool) :
    MintChainInfo :=
  if sendOk && t.sendAttempts > 0 then t.instructions.foldl applyInstr st else st

/-- Authority field selected by kind. -/
def currentAuthorityOf (md : MintChainInfo) : AuthorityKind → Option String
  | .mintTokens => md.mintAuthority
  | .freezeAccount => md.freezeAuthority

/-- Requested option flag selected by kind. -/
def requestedFlagOf (o : RevokeAuthorityOptions) : AuthorityKind → Option Bool
  | .mintTokens => o.revokeMintAuthority
  | .freezeAccount => o.revokeFreezeAuthority

/-- Reported revoked flag selected by kind. -/
def revokedFlagOf (f : RevokedFlags) : AuthorityKind → Bool
  | .mintTokens => f.mintAuthority
  | .freezeAccount => f.freezeAuthority

/-! ## src/api-server.ts: the POST /revoke-authorities handler -/

/-- A JSON response body from the revoke-authorities endpoint. -/
inductive RevokeBody where
  | success (mintAddress : String) (signatures : List String)
      (revoked : RevokedFlags) (message : String)
  | failure (error : String)
deriving Repr, DecidableEq

/-- Outcome of one POST /revoke-authorities request: HTTP status, JSON
body, and the arguments the handler passed to `revokeTokenAuthorities`
(`none` when validation rejected the request before the call). -/
structure RevokeOutcome where
  status : Nat
  body : RevokeBody
  calledWith : Option (String × RevokeAuthorityOptions)
deriving Repr, DecidableEq

/-- `flag ?? true` as it applies after the handler's boolean validation:
the field is either absent (defaulted to `true`) or a boolean. -/
def flagOrTrue : Option JVal → Bool
  | some (.jBool b) => b
  | _ => true

/-- The POST /revoke-authorities handler (src/api-server.ts lines
122-193), parameterized by the collaborator called on line 165 (so a
stub can record the options it received, and the real
`revokeTokenAuthorities` model can be plugged in). -/
def revokeAuthoritiesHandler (mintAddressField rmaField rfaField : Option JVal)
    (collab : String → RevokeAuthorityOptions → RevocationResult) : RevokeOutcome :=
  if !fieldTruthy mintAddressField then
    ⟨400, .failure "Missing required parameter: mintAddress", none⟩
  else
    match mintAddressField with
    | some (.jStr mintAddress) =>
      if rmaField.isSome && typeOfOpt rmaField != "boolean" then
        ⟨400, .failure "revokeMintAuthority must be a boolean", none⟩
      else if rfaField.isSome && typeOfOpt rfaField != "boolean" then
        ⟨400, .failure "revokeFreezeAuthority must be a boolean", none⟩
      else
        let options : RevokeAuthorityOptions :=
          ⟨some (flagOrTrue rmaField), some (flagOrTrue rfaField)⟩
        let result := collab mintAddress options
        if result.success then
          ⟨200,
           .success mintAddress (result.signatures.getD [])
             (result.revoked.getD ⟨false, false⟩) "Authority revocation completed",
           some (mintAddress, options)⟩
        else
          let e := match result.error with
            | some m => if m.isEmpty then "Failed to revoke authorities" else m
            | none => "Failed to revoke authorities"
          ⟨500, .failure e, some (mintAddress, options)⟩
    | _ => ⟨400, .failure "mintAddress must be a string", none⟩

/-! ## Helper lemmas -/

/-- A string includes every prefix of itself. -/
lemma includesAux_self_append (pat rest : List Char) :
    includesAux pat (pat ++ rest) = true := by
  cases pat with
  | nil =>
    cases rest with
    | nil => simp [includesAux]
    | cons c t => simp [includesAux]
  | cons c t =>
    have hpre : (c :: t).isPrefixOf (c :: t ++ rest) = true := by
      rw [List.isPrefixOf_iff_prefix]
      exact List.prefix_append _ _
    simp [includesAux, hpre]

/-- `hay.includes(pat)` holds when `hay` starts with `pat`. -/
lemma includes_of_append (pat rest : String) :
    includes (pat ++ rest) pat = true := by
  have : (pat ++ rest).toList = pat.toList ++ rest.toList := String.data_append ..
  rw [includes, this]
  exact includesAux_self_append _ _

/-- Any of the three recognised substrings yields status 400. -/
lemma createErrorStatus_eq_400 (m : String)
    (h : includes m "Failed to fetch metadata" = true ∨
         includes m "Invalid metadata" = true ∨ includes m "JSON" = true) :
    createErrorStatus m = 400 := by
  unfold createErrorStatus
  rcases h with h | h | h <;> simp [h]

/-- With none of the three substrings present the status is 500. -/
lemma createErrorStatus_eq_500 (m : String)
    (h1 : includes m "Failed to fetch metadata" = false)
    (h2 : includes m "Invalid metadata" = false)
    (h3 : includes m "JSON" = false) :
    createErrorStatus m = 500 := by
  simp [createErrorStatus, h1, h2, h3]

/-- Every authority branch produces one of three shapes: a queued
instruction (set the authority of this mint to null) with the revoked
flag set, a silent skip, or a warning-only skip. -/
lemma step_cases (a w : String) (sgn cur : Option String) (req : Option Bool)
    (k : AuthorityKind) (lb : String) :
    (∃ key, authorityRevocationStep a w sgn cur req k lb =
       (some ⟨a, key, k, none⟩, true, [])) ∨
    authorityRevocationStep a w sgn cur req k lb = (none, false, []) ∨
    authorityRevocationStep a w sgn cur req k lb =
      (none, false, ["Warning: Cannot revoke " ++ lb ++ " authority"]) := by
  unfold authorityRevocationStep
  split
  · dsimp only
    split
    · next key _ => exact Or.inl ⟨key, rfl⟩
    · exact Or.inr (Or.inr rfl)
  · exact Or.inr (Or.inl rfl)

/-- A set revoked flag comes with a queued instruction of the branch's
kind, targeting this mint, with null new authority. -/
lemma step_flag_shape (a w : String) (sgn cur : Option String) (req : Option Bool)
    (k : AuthorityKind) (lb : String)
    (h : (authorityRevocationStep a w sgn cur req k lb).2.1 = true) :
    ∃ key, authorityRevocationStep a w sgn cur req k lb =
      (some ⟨a, key, k, none⟩, true, []) := by
  rcases step_cases a w sgn cur req k lb with ⟨key, he⟩ | he | he
  · exact ⟨key, he⟩
  · rw [he] at h; simp at h
  · rw [he] at h; simp at h

/-- Any queued instruction carries the branch's kind and a null new
authority. -/
lemma step_instr_kind (a w : String) (sgn cur : Option String) (req : Option Bool)
    (k : AuthorityKind) (lb : String) (i : SetAuthorityInstr)
    (h : (authorityRevocationStep a w sgn cur req k lb).1 = some i) :
    i.mint = a ∧ i.kind = k ∧ i.newAuthority = none := by
  rcases step_cases a w sgn cur req k lb with ⟨key, he⟩ | he | he <;> rw [he] at h
  · simp only at h
    injection h with h2
    rw [← h2]
    exact ⟨rfl, rfl, rfl⟩
  · exact absurd h (by simp)
  · exact absurd h (by simp)

/-- A branch whose current authority is null queues nothing and reports
`revoked.<x> = false` without warning. -/
lemma step_null (a w : String) (sgn : Option String) (req : Option Bool)
    (k : AuthorityKind) (lb : String) :
    authorityRevocationStep a w sgn none req k lb = (none, false, []) := by
  unfold authorityRevocationStep
  simp [authorityTruthy]

/-- A branch whose flag is `false` queues nothing. -/
lemma step_flag_false (a w : String) (sgn cur : Option String)
    (k : AuthorityKind) (lb : String) :
    authorityRevocationStep a w sgn cur (some false) k lb = (none, false, []) := by
  unfold authorityRevocationStep
  simp [optionsFlag]

/-- A branch whose truthy current authority matches neither the wallet
key nor the optional mint-signer key queues nothing, reports the flag
false, and logs a warning. -/
lemma step_mismatch (a w : String) (sgn : Option String) (cu : String)
    (req : Option Bool) (k : AuthorityKind) (lb : String)
    (hcu : cu ≠ "") (hreq : optionsFlag req = true) (hnw : cu ≠ w)
    (hns : ∀ x, sgn = some x → cu ≠ x) :
    authorityRevocationStep a w sgn (some cu) req k lb =
      (none, false, ["Warning: Cannot revoke " ++ lb ++ " authority"]) := by
  unfold authorityRevocationStep
  have ht : authorityTruthy (some cu) = true := by
    show (!cu.isEmpty) = true
    cases hie : cu.isEmpty with
    | false => rfl
    | true => exact absurd ((String.isEmpty_iff cu).mp hie) hcu
  rw [ht, hreq]
  simp only [Bool.and_self, if_true]
  rw [if_neg (by simp [hnw])]
  cases sgn with
  | none => rfl
  | some x =>
    dsimp only
    rw [if_neg (by simp [hns x rfl])]

/-- A branch whose truthy current authority is the wallet key queues the
set-authority-to-null instruction and reports the flag true. -/
lemma step_wallet (a w : String) (sgn : Option String) (req : Option Bool)
    (k : AuthorityKind) (lb : String)
    (hw : w ≠ "") (hreq : optionsFlag req = true) :
    authorityRevocationStep a w sgn (some w) req k lb =
      (some ⟨a, w, k, none⟩, true, []) := by
  unfold authorityRevocationStep
  have ht : authorityTruthy (some w) = true := by
    show (!w.isEmpty) = true
    cases hie : w.isEmpty with
    | false => rfl
    | true => exact absurd ((String.isEmpty_iff w).mp hie) hw
  rw [ht, hreq]
  simp only [Bool.and_self, if_true]

/-- The trace's instruction list is the concatenation of the two
branches' queued instructions. -/
lemma core_instructions (a w : String) (o : RevokeAuthorityOptions)
    (sgn : Option String) (md : MintChainInfo) (send : Except String String) :
    (revokeTokenAuthoritiesCore a w o sgn md send).2.instructions =
      (mintStepOf a w sgn o md).1.toList ++ (freezeStepOf a w sgn o md).1.toList := by
  unfold revokeTokenAuthoritiesCore
  dsimp only
  split
  · cases send <;> rfl
  · rfl

/-- The trace's warning list is the concatenation of the two branches'
warnings. -/
lemma core_warnings (a w : String) (o : RevokeAuthorityOptions)
    (sgn : Option String) (md : MintChainInfo) (send : Except String String) :
    (revokeTokenAuthoritiesCore a w o sgn md send).2.warnings =
      (mintStepOf a w sgn o md).2.2 ++ (freezeStepOf a w sgn o md).2.2 := by
  unfold revokeTokenAuthoritiesCore
  dsimp only
  split
  · cases send <;> rfl
  · rfl

/-- When the transaction send succeeds (or nothing is sent) the call
reports success. -/
lemma core_success_ok (a w : String) (o : RevokeAuthorityOptions)
    (sgn : Option String) (md : MintChainInfo) (sig : String) :
    (revokeTokenAuthoritiesCore a w o sgn md (.ok sig)).1.success = true := by
  unfold revokeTokenAuthoritiesCore
  dsimp only
  split <;> rfl

/-- Whenever revoked flags are reported, they are the two branches'
flags. -/
lemma core_revoked_eq (a w : String) (o : RevokeAuthorityOptions)
    (sgn : Option String) (md : MintChainInfo) (send : Except String String)
    (f : RevokedFlags)
    (h : (revokeTokenAuthoritiesCore a w o sgn md send).1.revoked = some f) :
    f = ⟨(mintStepOf a w sgn o md).2.1, (freezeStepOf a w sgn o md).2.1⟩ := by
  unfold revokeTokenAuthoritiesCore at h
  dsimp only at h
  split at h
  · cases send with
    | ok sig => injection h with h2; rw [← h2]
    | error m => exact absurd h (by simp)
  · injection h with h2; rw [← h2]

/-- With no queued instruction the call is a no-op short circuit:
success, empty signature list, zero send attempts. -/
lemma core_of_no_instructions (a w : String) (o : RevokeAuthorityOptions)
    (sgn : Option String) (md : MintChainInfo) (send : Except String String)
    (h1 : (mintStepOf a w sgn o md).1 = none)
    (h2 : (freezeStepOf a w sgn o md).1 = none) :
    revokeTokenAuthoritiesCore a w o sgn md send =
      (⟨true, some [], none,
        some ⟨(mintStepOf a w sgn o md).2.1, (freezeStepOf a w sgn o md).2.1⟩⟩,
       ⟨[], 0, (mintStepOf a w sgn o md).2.2 ++ (freezeStepOf a w sgn o md).2.2⟩) := by
  unfold revokeTokenAuthoritiesCore
  dsimp only
  rw [h1, h2]
  rfl

/-- An empty trace instruction list means neither branch queued an
instruction. -/
lemma steps_none_of_instructions_nil (a w : String) (o : RevokeAuthorityOptions)
    (sgn : Option String) (md : MintChainInfo) (send : Except String String)
    (h : (revokeTokenAuthoritiesCore a w o sgn md send).2.instructions = []) :
    (mintStepOf a w sgn o md).1 = none ∧ (freezeStepOf a w sgn o md).1 = none := by
  rw [core_instructions] at h
  rcases hm : (mintStepOf a w sgn o md).1 with _ | i1 <;> rw [hm] at h <;>
    rcases hf : (freezeStepOf a w sgn o md).1 with _ | i2 <;> rw [hf] at h <;>
    simp_all

/-- The send is attempted exactly once when an instruction was queued. -/
lemma core_sendAttempts (a w : String) (o : RevokeAuthorityOptions)
    (sgn : Option String) (md : MintChainInfo) (send : Except String String) :
    (revokeTokenAuthoritiesCore a w o sgn md send).2.sendAttempts =
      (if (revokeTokenAuthoritiesCore a w o sgn md send).2.instructions.isEmpty
        then 0 else 1) := by
  rw [core_instructions]
  unfold revokeTokenAuthoritiesCore
  dsimp only
  split
  next hlen =>
    have hne : ((mintStepOf a w sgn o md).1.toList ++
        (freezeStepOf a w sgn o md).1.toList).isEmpty = false := by
      rcases h : (mintStepOf a w sgn o md).1.toList ++
          (freezeStepOf a w sgn o md).1.toList with _ | ⟨x, xs⟩
      · rw [h] at hlen; simp at hlen
      · rfl
    cases send <;> simp [hne]
  next hlen =>
    have he : ((mintStepOf a w sgn o md).1.toList ++
        (freezeStepOf a w sgn o md).1.toList).isEmpty = true := by
      rcases h : (mintStepOf a w sgn o md).1.toList ++
          (freezeStepOf a w sgn o md).1.toList with _ | ⟨x, xs⟩
      · rfl
      · rw [h] at hlen; simp at hlen
    simp [he]

/-- The reported signature list never holds more than one signature. -/
lemma core_signatures_len (a w : String) (o : RevokeAuthorityOptions)
    (sgn : Option String) (md : MintChainInfo) (send : Except String String) :
    ((revokeTokenAuthoritiesCore a w o sgn md send).1.signatures.getD []).length ≤ 1 := by
  unfold revokeTokenAuthoritiesCore
  dsimp only
  split
  · cases send <;> simp
  · simp

/-- Branch selected by authority kind. -/
def stepOf (a w : String) (sgn : Option String) (o : RevokeAuthorityOptions)
    (md : MintChainInfo) : AuthorityKind → Option SetAuthorityInstr × Bool × List String
  | .mintTokens => mintStepOf a w sgn o md
  | .freezeAccount => freezeStepOf a w sgn o md

/-- An authority already null on chain yields a silent skip. -/
lemma stepOf_null (a w : String) (sgn : Option String) (o : RevokeAuthorityOptions)
    (md : MintChainInfo) (k : AuthorityKind)
    (h : currentAuthorityOf md k = none) :
    stepOf a w sgn o md k = (none, false, []) := by
  cases k with
  | mintTokens =>
    unfold stepOf mintStepOf
    rw [show md.mintAuthority = none from h]
    exact step_null a w sgn o.revokeMintAuthority .mintTokens "mint"
  | freezeAccount =>
    unfold stepOf freezeStepOf
    rw [show md.freezeAuthority = none from h]
    exact step_null a w sgn o.revokeFreezeAuthority .freezeAccount "freeze"

/-- A set revoked flag comes with a queued instruction of that kind. -/
lemma stepOf_flag_shape (a w : String) (sgn : Option String)
    (o : RevokeAuthorityOptions) (md : MintChainInfo) (k : AuthorityKind)
    (h : (stepOf a w sgn o md k).2.1 = true) :
    ∃ key, stepOf a w sgn o md k = (some ⟨a, key, k, none⟩, true, []) := by
  cases k with
  | mintTokens =>
    exact step_flag_shape a w sgn md.mintAuthority o.revokeMintAuthority
      .mintTokens "mint" h
  | freezeAccount =>
    exact step_flag_shape a w sgn md.freezeAuthority o.revokeFreezeAuthority
      .freezeAccount "freeze" h

/-- When the kind's branch queued nothing, no instruction of that kind
is in the trace. -/
lemma core_no_kind_instr (a w : String) (o : RevokeAuthorityOptions)
    (sgn : Option String) (md : MintChainInfo) (send : Except String String)
    (k : AuthorityKind) (h1 : (stepOf a w sgn o md k).1 = none) :
    ∀ i ∈ (revokeTokenAuthoritiesCore a w o sgn md send).2.instructions,
      i.kind ≠ k := by
  intro i hi
  rw [core_instructions] at hi
  cases k with
  | mintTokens =>
    rw [show (mintStepOf a w sgn o md).1 = none from h1] at hi
    simp only [Option.toList_none, List.nil_append] at hi
    rcases hf : (freezeStepOf a w sgn o md).1 with _ | i2
    · rw [hf] at hi; simp at hi
    · rw [hf] at hi
      simp only [Option.toList_some, List.mem_singleton] at hi
      subst hi
      obtain ⟨-, hk, -⟩ := step_instr_kind a w sgn md.freezeAuthority
        o.revokeFreezeAuthority .freezeAccount "freeze" i hf
      rw [hk]
      simp
  | freezeAccount =>
    rw [show (freezeStepOf a w sgn o md).1 = none from h1] at hi
    simp only [Option.toList_none, List.append_nil] at hi
    rcases hf : (mintStepOf a w sgn o md).1 with _ | i1
    · rw [hf] at hi; simp at hi
    · rw [hf] at hi
      simp only [Option.toList_some, List.mem_singleton] at hi
      subst hi
      obtain ⟨-, hk, -⟩ := step_instr_kind a w sgn md.mintAuthority
        o.revokeMintAuthority .mintTokens "mint" i hf
      rw [hk]
      simp

/-- When the kind's branch did not set its flag, any reported revoked
flags carry `false` for that kind. -/
lemma core_flag_false (a w : String) (o : RevokeAuthorityOptions)
    (sgn : Option String) (md : MintChainInfo) (send : Except String String)
    (k : AuthorityKind) (h2 : (stepOf a w sgn o md k).2.1 = false) :
    ∀ f, (revokeTokenAuthoritiesCore a w o sgn md send).1.revoked = some f →
      revokedFlagOf f k = false := by
  intro f hf
  have he := core_revoked_eq a w o sgn md send f hf
  subst he
  cases k with
  | mintTokens => exact h2
  | freezeAccount => exact h2

/-- A confirmed transaction that carried the kind's set-to-null
instruction leaves that authority null on chain. -/
lemma applyTransaction_clears (a w : String) (o : RevokeAuthorityOptions)
    (sgn : Option String) (md : MintChainInfo) (send : Except String String)
    (k : AuthorityKind) (key : String)
    (hstep : stepOf a w sgn o md k = (some ⟨a, key, k, none⟩, true, [])) :
    currentAuthorityOf
      (applyTransaction md (revokeTokenAuthoritiesCore a w o sgn md send).2 true)
      k = none := by
  have hsend1 : ∀ l x xs,
      (revokeTokenAuthoritiesCore a w o sgn md send).2.instructions = l → l = x :: xs →
      (revokeTokenAuthoritiesCore a w o sgn md send).2.sendAttempts = 1 := by
    intro l x xs hl hcons
    rw [core_sendAttempts, hl, hcons]
    rfl
  cases k with
  | mintTokens =>
    have hms : (mintStepOf a w sgn o md).1 = some ⟨a, key, .mintTokens, none⟩ := by
      rw [show mintStepOf a w sgn o md =
        (some ⟨a, key, .mintTokens, none⟩, true, []) from hstep]
    rcases hf : (freezeStepOf a w sgn o md).1 with _ | i2
    · have hins : (revokeTokenAuthoritiesCore a w o sgn md send).2.instructions =
          [⟨a, key, .mintTokens, none⟩] := by
        rw [core_instructions, hms, hf]
        rfl
      unfold applyTransaction
      rw [hins, hsend1 _ _ _ hins rfl]
      rfl
    · obtain ⟨-, hk2, hn2⟩ := step_instr_kind a w sgn md.freezeAuthority
        o.revokeFreezeAuthority .freezeAccount "freeze" i2 hf
      have hins : (revokeTokenAuthoritiesCore a w o sgn md send).2.instructions =
          [⟨a, key, .mintTokens, none⟩, i2] := by
        rw [core_instructions, hms, hf]
        rfl
      unfold applyTransaction
      rw [hins, hsend1 _ _ _ hins rfl]
      show currentAuthorityOf (applyInstr (applyInstr md ⟨a, key, .mintTokens, none⟩) i2)
        .mintTokens = none
      unfold applyInstr
      rw [hk2]
      rfl
  | freezeAccount =>
    have hfs : (freezeStepOf a w sgn o md).1 = some ⟨a, key, .freezeAccount, none⟩ := by
      rw [show freezeStepOf a w sgn o md =
        (some ⟨a, key, .freezeAccount, none⟩, true, []) from hstep]
    rcases hmopt : (mintStepOf a w sgn o md).1 with _ | i1
    · have hins : (revokeTokenAuthoritiesCore a w o sgn md send).2.instructions =
          [⟨a, key, .freezeAccount, none⟩] := by
        rw [core_instructions, hmopt, hfs]
        rfl
      unfold applyTransaction
      rw [hins, hsend1 _ _ _ hins rfl]
      rfl
    · obtain ⟨-, hk1, hn1⟩ := step_instr_kind a w sgn md.mintAuthority
        o.revokeMintAuthority .mintTokens "mint" i1 hmopt
      have hins : (revokeTokenAuthoritiesCore a w o sgn md send).2.instructions =
          [i1, ⟨a, key, .freezeAccount, none⟩] := by
        rw [core_instructions, hmopt, hfs]
        rfl
      unfold applyTransaction
      rw [hins, hsend1 _ _ _ hins rfl]
      show currentAuthorityOf (applyInstr (applyInstr md i1) ⟨a, key, .freezeAccount, none⟩)
        .freezeAccount = none
      rfl

/-- Reduction of `revokeTokenAuthorities` to its core once the three
preliminary external calls succeed. -/
lemma revoke_reduce (a : String) (o : RevokeAuthorityOptions)
    (sgn : Option String) (env : RevokeEnv) (w : String) (md : MintChainInfo)
    (hw : env.walletLoad = .ok w) (hp : env.pubkeyParse = .ok ())
    (hm : env.mintInfo = some md) :
    revokeTokenAuthorities a o sgn env =
      revokeTokenAuthoritiesCore a w o sgn md env.sendResult := by
  unfold revokeTokenAuthorities
  rw [hw, hp, hm]

/-! ## Claim theorems -/

/-- C1: for every POST /create-token request whose `metadataUrl` is
malformed (missing, empty, not a string, or not an absolute http/https
URL), the handler returns HTTP 400 with the `{success:false, error}`
envelope and never invokes `createTokenFromMetadataUrl`. -/
theorem createToken_rejects_malformed_metadataUrl
    (v : Option JVal) (env : CreateEnv) (h : malformedMetadataUrl v = true) :
    (createTokenHandler v env).status = 400 ∧
    (createTokenHandler v env).createCalled = false ∧
    (createTokenHandler v env).mintReached = false ∧
    ∃ e, (createTokenHandler v env).body = .failure e none := by
  cases v with
  | none =>
    refine ⟨?_, ?_, ?_, ?_⟩ <;> simp [createTokenHandler, fieldTruthy]
  | some val =>
    cases val with
    | jStr s =>
      by_cases he : s.isEmpty = true
      · refine ⟨?_, ?_, ?_, ?_⟩ <;>
          simp [createTokenHandler, fieldTruthy, jsTruthy, he]
      · have hurl : isValidUrl s = false := by
          simp [malformedMetadataUrl, he] at h
          exact h
        refine ⟨?_, ?_, ?_, ?_⟩ <;>
          simp [createTokenHandler, fieldTruthy, jsTruthy, he, hurl]
    | jNull =>
      refine ⟨?_, ?_, ?_, ?_⟩ <;> simp [createTokenHandler, fieldTruthy, jsTruthy]
    | jBool b =>
      cases b <;> (refine ⟨?_, ?_, ?_, ?_⟩ <;>
        simp [createTokenHandler, fieldTruthy, jsTruthy])
    | jNum n =>
      by_cases hn : n = 0
      · refine ⟨?_, ?_, ?_, ?_⟩ <;>
          simp [createTokenHandler, fieldTruthy, jsTruthy, hn]
      · refine ⟨?_, ?_, ?_, ?_⟩ <;>
          simp [createTokenHandler, fieldTruthy, jsTruthy, hn]
    | jArr l =>
      refine ⟨?_, ?_, ?_, ?_⟩ <;> simp [createTokenHandler, fieldTruthy, jsTruthy]
    | jObj fs =>
      refine ⟨?_, ?_, ?_, ?_⟩ <;> simp [createTokenHandler, fieldTruthy, jsTruthy]

/-- On an object document, `validateMetadata` computes exactly the
four trimmed-field checks. -/
lemma validateMetadata_obj (fs : List (String × JVal)) :
    validateMetadata (.jObj fs) = .ok (requiredOkTrim (.jObj fs)) := by
  unfold validateMetadata
  simp only [typeOf, jget]
  rcases h1 : fs.lookup "name" with _ | v1
  · simp [requiredOkTrim, fieldOkTrim, typeOfOpt, h1]
  cases v1 with
  | jNull => simp [requiredOkTrim, fieldOkTrim, typeOfOpt, typeOf, h1]
  | jBool b => simp [requiredOkTrim, fieldOkTrim, typeOfOpt, typeOf, h1]
  | jNum n => simp [requiredOkTrim, fieldOkTrim, typeOfOpt, typeOf, h1]
  | jArr l => simp [requiredOkTrim, fieldOkTrim, typeOfOpt, typeOf, h1]
  | jObj o => simp [requiredOkTrim, fieldOkTrim, typeOfOpt, typeOf, h1]
  | jStr s1 =>
    rcases h2 : fs.lookup "symbol" with _ | v2
    · simp [requiredOkTrim, fieldOkTrim, typeOfOpt, typeOf, h1, h2]
    cases v2 with
    | jNull => simp [requiredOkTrim, fieldOkTrim, typeOfOpt, typeOf, h1, h2]
    | jBool b => simp [requiredOkTrim, fieldOkTrim, typeOfOpt, typeOf, h1, h2]
    | jNum n => simp [requiredOkTrim, fieldOkTrim, typeOfOpt, typeOf, h1, h2]
    | jArr l => simp [requiredOkTrim, fieldOkTrim, typeOfOpt, typeOf, h1, h2]
    | jObj o => simp [requiredOkTrim, fieldOkTrim, typeOfOpt, typeOf, h1, h2]
    | jStr s2 =>
      rcases h3 : fs.lookup "description" with _ | v3
      · simp [requiredOkTrim, fieldOkTrim, typeOfOpt, typeOf, h1, h2, h3]
      cases v3 with
      | jNull => simp [requiredOkTrim, fieldOkTrim, typeOfOpt, typeOf, h1, h2, h3]
      | jBool b => simp [requiredOkTrim, fieldOkTrim, typeOfOpt, typeOf, h1, h2, h3]
      | jNum n => simp [requiredOkTrim, fieldOkTrim, typeOfOpt, typeOf, h1, h2, h3]
      | jArr l => simp [requiredOkTrim, fieldOkTrim, typeOfOpt, typeOf, h1, h2, h3]
      | jObj o => simp [requiredOkTrim, fieldOkTrim, typeOfOpt, typeOf, h1, h2, h3]
      | jStr s3 =>
        rcases h4 : fs.lookup "image" with _ | v4
        · simp [requiredOkTrim, fieldOkTrim, typeOfOpt, typeOf, h1, h2, h3, h4]
        cases v4 with
        | jNull => simp [requiredOkTrim, fieldOkTrim, typeOfOpt, typeOf, h1, h2, h3, h4]
        | jBool b => simp [requiredOkTrim, fieldOkTrim, typeOfOpt, typeOf, h1, h2, h3, h4]
        | jNum n => simp [requiredOkTrim, fieldOkTrim, typeOfOpt, typeOf, h1, h2, h3, h4]
        | jArr l => simp [requiredOkTrim, fieldOkTrim, typeOfOpt, typeOf, h1, h2, h3, h4]
        | jObj o => simp [requiredOkTrim, fieldOkTrim, typeOfOpt, typeOf, h1, h2, h3, h4]
        | jStr s4 => simp [requiredOkTrim, fieldOkTrim, typeOfOpt, typeOf, h1, h2, h3, h4]

/-- On every non-null document `validateMetadata` returns normally and
computes the trimmed-field conjunction. -/
lemma validateMetadata_of_ne_null (doc : JVal) (h : doc ≠ .jNull) :
    validateMetadata doc = .ok (requiredOkTrim doc) := by
  cases doc with
  | jNull => exact absurd rfl h
  | jObj fs => exact validateMetadata_obj fs
  | jBool b => simp [validateMetadata, requiredOkTrim, typeOf]
  | jNum n => simp [validateMetadata, requiredOkTrim, typeOf]
  | jStr s => simp [validateMetadata, requiredOkTrim, typeOf]
  | jArr l => simp [validateMetadata, requiredOkTrim, typeOf, jget, typeOfOpt]

/-- A field passing the trimmed check is in particular a non-empty
string. -/
lemma hasRequiredField_of_fieldOkTrim (fs : List (String × JVal)) (k : String)
    (h : fieldOkTrim fs k = true) : hasRequiredField (.jObj fs) k = true := by
  unfold fieldOkTrim at h
  have hg : hasRequiredField (.jObj fs) k =
      (match fs.lookup k with | some (.jStr s) => !s.isEmpty | _ => false) := rfl
  rw [hg]
  rcases hl : fs.lookup k with _ | v <;> rw [hl] at h
  · simp at h
  · cases v with
    | jStr s =>
      have hs : s ≠ "" := by
        intro he
        rw [he] at h
        exact absurd h (by decide)
      cases hse : s.isEmpty with
      | false => simp [hse]
      | true => exact absurd ((String.isEmpty_iff s).mp hse) hs
    | jNull => simp at h
    | jBool b => simp at h
    | jNum n => simp at h
    | jArr l => simp at h
    | jObj o => simp at h

/-- The trimmed-field conjunction implies the plain non-empty-string
requirement. -/
lemma missingRequiredField_of_requiredOkTrim (doc : JVal)
    (h : requiredOkTrim doc = true) : missingRequiredField doc = false := by
  cases doc with
  | jObj fs =>
    unfold requiredOkTrim at h
    rw [Bool.and_eq_true, Bool.and_eq_true, Bool.and_eq_true] at h
    obtain ⟨⟨⟨hh1, hh2⟩, hh3⟩, hh4⟩ := h
    unfold missingRequiredField
    rw [hasRequiredField_of_fieldOkTrim fs "name" hh1,
      hasRequiredField_of_fieldOkTrim fs "symbol" hh2,
      hasRequiredField_of_fieldOkTrim fs "description" hh3,
      hasRequiredField_of_fieldOkTrim fs "image" hh4]
    rfl
  | jNull => simp [requiredOkTrim] at h
  | jBool b => simp [requiredOkTrim] at h
  | jNum n => simp [requiredOkTrim] at h
  | jStr s => simp [requiredOkTrim] at h
  | jArr l => simp [requiredOkTrim] at h

/-- C10: metadata validation is stricter than non-empty string: on every
non-null document `validateMetadata` computes, for each required field,
that the field is a string whose trimmed value is non-empty; any string
passing that check is non-empty, and a whitespace-only field (which does
satisfy the plain non-empty requirement) is rejected exactly like an
empty or a missing field. -/
theorem validateMetadata_trim_strictness :
    (∀ doc : JVal, doc ≠ .jNull → validateMetadata doc = .ok (requiredOkTrim doc)) ∧
    (∀ doc : JVal, requiredOkTrim doc = true → missingRequiredField doc = false) ∧
    validateMetadata (.jObj [("name", .jStr " "), ("symbol", .jStr "WSP"),
      ("description", .jStr "d"), ("image", .jStr "i")]) = .ok false ∧
    missingRequiredField (.jObj [("name", .jStr " "), ("symbol", .jStr "WSP"),
      ("description", .jStr "d"), ("image", .jStr "i")]) = false ∧
    validateMetadata (.jObj [("name", .jStr ""), ("symbol", .jStr "WSP"),
      ("description", .jStr "d"), ("image", .jStr "i")]) = .ok false ∧
    validateMetadata (.jObj [("symbol", .jStr "WSP"),
      ("description", .jStr "d"), ("image", .jStr "i")]) = .ok false :=
  ⟨validateMetadata_of_ne_null, missingRequiredField_of_requiredOkTrim,
    rfl, rfl, rfl, rfl⟩

/-- Witness for C10: the characterization evaluated at a concrete
document whose fields are all proper strings. -/
theorem validateMetadata_trim_strictness_witness :
    validateMetadata (.jObj [("name", .jStr "N"), ("symbol", .jStr "S"),
      ("description", .jStr "D"), ("image", .jStr "I")]) =
      .ok (requiredOkTrim (.jObj [("name", .jStr "N"), ("symbol", .jStr "S"),
        ("description", .jStr "D"), ("image", .jStr "I")])) :=
  validateMetadata_trim_strictness.1 _ (by simp)

/-- C2 counterexample: the fetched JSON document `null` misses every
required field, yet token creation fails with a `TypeError` message that
does not contain `Invalid metadata` (so the HTTP layer maps it to 500,
not 400); `createMint` is still never reached. -/
theorem createToken_null_document_counterexample :
    missingRequiredField .jNull = true ∧
    createTokenFromMetadataUrl
        ⟨.ok (), .payload .jNull, .ok ⟨"mint", "sig", "url"⟩⟩ =
      (.error (.err "Cannot read properties of null (reading \x27name\x27)"), false) ∧
    includes "Cannot read properties of null (reading \x27name\x27)"
      "Invalid metadata" = false := by
  refine ⟨rfl, rfl, by decide⟩

/-- C2 (amended): for every fetched metadata document missing one of the
four required fields, `createMint` is never reached; for every such
document other than JSON `null`, the failure is precisely the
`Invalid metadata` error. -/
theorem createToken_invalid_metadata_blocks_mint
    (env : CreateEnv) (doc : JVal)
    (hw : env.walletLoad = .ok ())
    (hf : env.fetchOutcome = .payload doc)
    (hmiss : missingRequiredField doc = true) :
    (createTokenFromMetadataUrl env).2 = false ∧
    (doc ≠ .jNull →
      (createTokenFromMetadataUrl env).1 = .error (.err invalidMetadataMsg)) := by
  by_cases hn : doc = .jNull
  · subst hn
    refine ⟨?_, fun hne => absurd rfl hne⟩
    simp [createTokenFromMetadataUrl, hw, hf, validateMetadata, typeOf, jget]
  · have hok : validateMetadata doc = .ok false := by
      have hv := validateMetadata_of_ne_null doc hn
      cases hro : requiredOkTrim doc with
      | false => rw [hro] at hv; exact hv
      | true =>
        have hmf := missingRequiredField_of_requiredOkTrim doc hro
        rw [hmf] at hmiss
        exact absurd hmiss (by simp)
    refine ⟨?_, fun _ => ?_⟩ <;>
      simp [createTokenFromMetadataUrl, hw, hf, hok]

/-- Witness for the amended C2 at a concrete empty-object document. -/
theorem createToken_invalid_metadata_blocks_mint_witness :
    (createTokenFromMetadataUrl
        ⟨.ok (), .payload (.jObj []), .ok ⟨"m", "s", "e"⟩⟩).2 = false ∧
    (createTokenFromMetadataUrl
        ⟨.ok (), .payload (.jObj []), .ok ⟨"m", "s", "e"⟩⟩).1 =
      .error (.err invalidMetadataMsg) := by
  have h := createToken_invalid_metadata_blocks_mint
    ⟨.ok (), .payload (.jObj []), .ok ⟨"m", "s", "e"⟩⟩ (.jObj []) rfl rfl rfl
  exact ⟨h.1, h.2 (by simp)⟩

/-- C3: every error thrown during /create-token processing is mapped by
substring matching on its message: messages containing
`Failed to fetch metadata` (fetch failures), `Invalid metadata` (schema
failures) or `JSON` (parse failures) yield HTTP 400, every other Error
message yields 500, a thrown non-Error value yields 500 with a generic
message, and in every case the body is the uniform failure envelope. -/
theorem createToken_error_status_mapping
    (u : String) (env : CreateEnv) (hu : isValidUrl u = true) :
    (∀ m, (createTokenFromMetadataUrl env).1 = .error (.err m) →
       (createTokenHandler (some (.jStr u)) env).body = .failure m none ∧
       ((includes m "Failed to fetch metadata" = true ∨
           includes m "Invalid metadata" = true ∨ includes m "JSON" = true) →
         (createTokenHandler (some (.jStr u)) env).status = 400) ∧
       (includes m "Failed to fetch metadata" = false →
         includes m "Invalid metadata" = false → includes m "JSON" = false →
         (createTokenHandler (some (.jStr u)) env).status = 500)) ∧
    (∀ v, (createTokenFromMetadataUrl env).1 = .error (.nonError v) →
       (createTokenHandler (some (.jStr u)) env).body =
         .failure "An unexpected error occurred" none ∧
       (createTokenHandler (some (.jStr u)) env).status = 500) ∧
    (∀ st txt, env.fetchOutcome = .httpError st txt → env.walletLoad = .ok () →
       (createTokenHandler (some (.jStr u)) env).status = 400) ∧
    (∀ doc, env.fetchOutcome = .payload doc → env.walletLoad = .ok () →
       validateMetadata doc = .ok false →
       (createTokenHandler (some (.jStr u)) env).status = 400) := by
  have hne : u.isEmpty = false := by
    cases hie : u.isEmpty with
    | false => rfl
    | true =>
      rw [String.isEmpty_iff] at hie
      rw [hie] at hu
      exact absurd hu (by decide)
  refine ⟨?_, ?_, ?_, ?_⟩
  · intro m hm
    rcases hc : createTokenFromMetadataUrl env with ⟨res, reached⟩
    rw [hc] at hm
    simp only at hm
    subst hm
    refine ⟨?_, ?_, ?_⟩
    · simp [createTokenHandler, fieldTruthy, jsTruthy, hne, hu, hc]
    · intro hor
      have h4 := createErrorStatus_eq_400 m hor
      simp [createTokenHandler, fieldTruthy, jsTruthy, hne, hu, hc, h4]
    · intro h1 h2 h3
      have h5 := createErrorStatus_eq_500 m h1 h2 h3
      simp [createTokenHandler, fieldTruthy, jsTruthy, hne, hu, hc, h5]
  · intro v hv
    rcases hc : createTokenFromMetadataUrl env with ⟨res, reached⟩
    rw [hc] at hv
    simp only at hv
    subst hv
    constructor <;> simp [createTokenHandler, fieldTruthy, jsTruthy, hne, hu, hc]
  · intro st txt hf hw
    have hc : createTokenFromMetadataUrl env =
        (.error (.err ("Failed to fetch metadata: " ++ toString st ++ " " ++ txt)), false) := by
      simp [createTokenFromMetadataUrl, hw, hf]
    have hmsg : "Failed to fetch metadata: " ++ toString st ++ " " ++ txt =
        "Failed to fetch metadata" ++ (": " ++ (toString st ++ (" " ++ txt))) := by
      have h0 : "Failed to fetch metadata: " = "Failed to fetch metadata" ++ ": " := by decide
      rw [h0, String.append_assoc, String.append_assoc, String.append_assoc]
    have hin : includes ("Failed to fetch metadata: " ++ toString st ++ " " ++ txt)
        "Failed to fetch metadata" = true := by
      rw [hmsg]
      exact includes_of_append _ _
    have h4 := createErrorStatus_eq_400 _ (Or.inl hin)
    simp [createTokenHandler, fieldTruthy, jsTruthy, hne, hu, hc, h4]
  · intro doc hf hw hval
    have hc : createTokenFromMetadataUrl env = (.error (.err invalidMetadataMsg), false) := by
      simp [createTokenFromMetadataUrl, hw, hf, hval]
    have hin : includes invalidMetadataMsg "Invalid metadata" = true := by decide
    have h4 := createErrorStatus_eq_400 _ (Or.inr (Or.inl hin))
    simp [createTokenHandler, fieldTruthy, jsTruthy, hne, hu, hc, h4]

/-- Witness for C3: a concrete 404 fetch failure is answered with 400. -/
theorem createToken_error_status_mapping_witness :
    (createTokenHandler (some (.jStr "http://x"))
        ⟨.ok (), .httpError 404 "Not Found", .ok ⟨"m", "s", "e"⟩⟩).status = 400 :=
  (createToken_error_status_mapping "http://x"
    ⟨.ok (), .httpError 404 "Not Found", .ok ⟨"m", "s", "e"⟩⟩
    (by decide)).2.2.1 404 "Not Found" rfl rfl

/-- C8: every revoke call submits all queued set-authority instructions
in one single transaction: `sendAndConfirmTransaction` is attempted
exactly once when at least one instruction was queued and never
otherwise, and the reported signature list never holds more than one
signature. -/
theorem revoke_single_transaction (mintAddress : String)
    (options : RevokeAuthorityOptions) (mintSigner : Option String) (env : RevokeEnv) :
    (revokeTokenAuthorities mintAddress options mintSigner env).2.sendAttempts =
      (if (revokeTokenAuthorities mintAddress options mintSigner env).2.instructions.isEmpty
        then 0 else 1) ∧
    ((revokeTokenAuthorities mintAddress options mintSigner env).1.signatures.getD
      []).length ≤ 1 := by
  unfold revokeTokenAuthorities
  cases hw : env.walletLoad with
  | error m => simp
  | ok w =>
    cases hp : env.pubkeyParse with
    | error m => simp
    | ok u =>
      cases hm : env.mintInfo with
      | none => simp
      | some md =>
        exact ⟨core_sendAttempts mintAddress w options mintSigner md env.sendResult,
          core_signatures_len mintAddress w options mintSigner md env.sendResult⟩

/-- C5: a revoke call that queues zero instructions (for example when
both flags are false) submits no transaction and reports success with an
empty signature list; in particular a /revoke-authorities request with
both flags false is answered 200 with `signatures: []`. -/
theorem revoke_zero_instructions_noop
    (a : String) (options : RevokeAuthorityOptions) (sgn : Option String)
    (env : RevokeEnv) (w : String) (md : MintChainInfo)
    (hw : env.walletLoad = .ok w) (hp : env.pubkeyParse = .ok ())
    (hm : env.mintInfo = some md) :
    ((revokeTokenAuthorities a options sgn env).2.instructions = [] →
      (revokeTokenAuthorities a options sgn env).2.sendAttempts = 0 ∧
      (revokeTokenAuthorities a options sgn env).1.success = true ∧
      (revokeTokenAuthorities a options sgn env).1.signatures = some []) ∧
    (∀ b : String, b ≠ "" →
      (revokeAuthoritiesHandler (some (.jStr b)) (some (.jBool false))
          (some (.jBool false))
          (fun addr opts => (revokeTokenAuthorities addr opts sgn env).1)).status = 200 ∧
      (revokeAuthoritiesHandler (some (.jStr b)) (some (.jBool false))
          (some (.jBool false))
          (fun addr opts => (revokeTokenAuthorities addr opts sgn env).1)).body =
        .success b [] ⟨false, false⟩ "Authority revocation completed") := by
  constructor
  · rw [revoke_reduce a options sgn env w md hw hp hm]
    intro h
    obtain ⟨h1, h2⟩ := steps_none_of_instructions_nil a w options sgn md env.sendResult h
    rw [core_of_no_instructions a w options sgn md env.sendResult h1 h2]
    exact ⟨rfl, rfl, rfl⟩
  · intro b hb
    have hbe : b.isEmpty = false := by
      cases hie : b.isEmpty with
      | false => rfl
      | true => exact absurd ((String.isEmpty_iff b).mp hie) hb
    have hm1 : mintStepOf b w sgn ⟨some false, some false⟩ md = (none, false, []) :=
      step_flag_false b w sgn md.mintAuthority .mintTokens "mint"
    have hf1 : freezeStepOf b w sgn ⟨some false, some false⟩ md = (none, false, []) :=
      step_flag_false b w sgn md.freezeAuthority .freezeAccount "freeze"
    have hres : (revokeTokenAuthorities b ⟨some false, some false⟩ sgn env).1 =
        ⟨true, some [], none, some ⟨false, false⟩⟩ := by
      rw [revoke_reduce b ⟨some false, some false⟩ sgn env w md hw hp hm]
      rw [core_of_no_instructions b w ⟨some false, some false⟩ sgn md env.sendResult
        (by rw [hm1]) (by rw [hf1])]
      rw [hm1, hf1]
    constructor <;>
      simp [revokeAuthoritiesHandler, fieldTruthy, jsTruthy, hbe, typeOfOpt, typeOf,
        flagOrTrue, hres]

/-- Witness for C5: a concrete both-flags-false request is answered
200. -/
theorem revoke_zero_instructions_noop_witness :
    (revokeAuthoritiesHandler (some (.jStr "M")) (some (.jBool false))
        (some (.jBool false))
        (fun addr opts => (revokeTokenAuthorities addr opts none
          ⟨.ok "W", .ok (), some ⟨some "W", some "W"⟩, .ok "SIG"⟩).1)).status = 200 :=
  ((revoke_zero_instructions_noop "M" ⟨some false, some false⟩ none
      ⟨.ok "W", .ok (), some ⟨some "W", some "W"⟩, .ok "SIG"⟩ "W" ⟨some "W", some "W"⟩
      rfl rfl rfl).2 "M" (by decide)).1

/-- C6: for each authority independently, when its flag is requested but
the truthy on-chain authority matches neither the wallet key nor the
optional mint-signer key, no instruction of that kind is queued, a
warning is surfaced, any reported revoked flags carry `false` for that
kind, and the call still reports success whenever the send of the
remaining instructions succeeds. -/
theorem revoke_mismatch_partial_success
    (a : String) (options : RevokeAuthorityOptions) (sgn : Option String)
    (env : RevokeEnv) (w : String) (md : MintChainInfo) (k : AuthorityKind)
    (cu : String)
    (hw : env.walletLoad = .ok w) (hp : env.pubkeyParse = .ok ())
    (hm : env.mintInfo = some md)
    (hcur : currentAuthorityOf md k = some cu) (hcu : cu ≠ "")
    (hreq : optionsFlag (requestedFlagOf options k) = true)
    (hnw : cu ≠ w) (hns : ∀ x, sgn = some x → cu ≠ x) :
    (∀ i ∈ (revokeTokenAuthorities a options sgn env).2.instructions, i.kind ≠ k) ∧
    (revokeTokenAuthorities a options sgn env).2.warnings ≠ [] ∧
    (∀ f, (revokeTokenAuthorities a options sgn env).1.revoked = some f →
      revokedFlagOf f k = false) ∧
    (∀ sig, env.sendResult = .ok sig →
      (revokeTokenAuthorities a options sgn env).1.success = true) := by
  rw [revoke_reduce a options sgn env w md hw hp hm]
  have hstep : stepOf a w sgn options md k =
      (none, false,
       ["Warning: Cannot revoke " ++
         (match k with | .mintTokens => "mint" | .freezeAccount => "freeze") ++
         " authority"]) := by
    cases k with
    | mintTokens =>
      unfold stepOf mintStepOf
      rw [show md.mintAuthority = some cu from hcur]
      exact step_mismatch a w sgn cu options.revokeMintAuthority .mintTokens "mint"
        hcu hreq hnw hns
    | freezeAccount =>
      unfold stepOf freezeStepOf
      rw [show md.freezeAuthority = some cu from hcur]
      exact step_mismatch a w sgn cu options.revokeFreezeAuthority .freezeAccount
        "freeze" hcu hreq hnw hns
  refine ⟨core_no_kind_instr a w options sgn md env.sendResult k (by rw [hstep]),
    ?_, core_flag_false a w options sgn md env.sendResult k (by rw [hstep]), ?_⟩
  · rw [core_warnings]
    cases k with
    | mintTokens =>
      have h2 : (mintStepOf a w sgn options md).2.2 =
          ["Warning: Cannot revoke " ++ "mint" ++ " authority"] :=
        congrArg (fun p => p.2.2) hstep
      rw [h2]
      simp
    | freezeAccount =>
      have h2 : (freezeStepOf a w sgn options md).2.2 =
          ["Warning: Cannot revoke " ++ "freeze" ++ " authority"] :=
        congrArg (fun p => p.2.2) hstep
      rw [h2]
      simp
  · intro sig hs
    rw [hs]
    exact core_success_ok a w options sgn md sig

/-- Witness for C6: a concrete mint-authority mismatch (authority held
by a third key) still yields overall success. -/
theorem revoke_mismatch_partial_success_witness :
    (revokeTokenAuthorities "M" ⟨some true, some true⟩ none
        ⟨.ok "W", .ok (), some ⟨some "OTHER", some "W"⟩, .ok "SIG"⟩).2.warnings ≠ [] ∧
    (revokeTokenAuthorities "M" ⟨some true, some true⟩ none
        ⟨.ok "W", .ok (), some ⟨some "OTHER", some "W"⟩, .ok "SIG"⟩).1.success = true := by
  have h := revoke_mismatch_partial_success "M" ⟨some true, some true⟩ none
    ⟨.ok "W", .ok (), some ⟨some "OTHER", some "W"⟩, .ok "SIG"⟩ "W"
    ⟨some "OTHER", some "W"⟩ .mintTokens "OTHER" rfl rfl rfl rfl (by decide) rfl
    (by decide) (fun x hx => by cases hx)
  exact ⟨h.2.1, h.2.2.2 "SIG" rfl⟩

/-- C7: an authority already null on chain at the start of a revoke call
gets no instruction and a false revoked flag; consequently, after a
first call whose confirmed transaction cleared an authority, a second
call with the same flags reports `revoked` false for it and queues no
instruction for it. -/
theorem revoke_already_null_idempotent
    (a : String) (options : RevokeAuthorityOptions) (sgn : Option String)
    (env1 env2 : RevokeEnv) (w1 w2 : String) (md : MintChainInfo)
    (hw1 : env1.walletLoad = .ok w1) (hp1 : env1.pubkeyParse = .ok ())
    (hm1 : env1.mintInfo = some md)
    (hw2 : env2.walletLoad = .ok w2) (hp2 : env2.pubkeyParse = .ok ())
    (hm2 : env2.mintInfo = some (applyTransaction md
        (revokeTokenAuthorities a options sgn env1).2 true)) :
    (∀ k : AuthorityKind, currentAuthorityOf md k = none →
       (∀ i ∈ (revokeTokenAuthorities a options sgn env1).2.instructions,
          i.kind ≠ k) ∧
       (∀ f, (revokeTokenAuthorities a options sgn env1).1.revoked = some f →
          revokedFlagOf f k = false)) ∧
    (∀ k f1, (revokeTokenAuthorities a options sgn env1).1.revoked = some f1 →
       revokedFlagOf f1 k = true →
       (∀ i ∈ (revokeTokenAuthorities a options sgn env2).2.instructions,
          i.kind ≠ k) ∧
       (∀ f2, (revokeTokenAuthorities a options sgn env2).1.revoked = some f2 →
          revokedFlagOf f2 k = false)) := by
  have hr1 : revokeTokenAuthorities a options sgn env1 =
      revokeTokenAuthoritiesCore a w1 options sgn md env1.sendResult :=
    revoke_reduce a options sgn env1 w1 md hw1 hp1 hm1
  constructor
  · intro k hk
    rw [hr1]
    have hstep := stepOf_null a w1 sgn options md k hk
    exact ⟨core_no_kind_instr a w1 options sgn md env1.sendResult k (by rw [hstep]),
      core_flag_false a w1 options sgn md env1.sendResult k (by rw [hstep])⟩
  · intro k f1 hrev hflag
    rw [hr1] at hrev
    have hfe := core_revoked_eq a w1 options sgn md env1.sendResult f1 hrev
    have hflagstep : (stepOf a w1 sgn options md k).2.1 = true := by
      rw [hfe] at hflag
      cases k with
      | mintTokens => exact hflag
      | freezeAccount => exact hflag
    obtain ⟨key, hshape⟩ := stepOf_flag_shape a w1 sgn options md k hflagstep
    have hmd2 : env2.mintInfo = some (applyTransaction md
        (revokeTokenAuthoritiesCore a w1 options sgn md env1.sendResult).2 true) := by
      rw [hm2, hr1]
    have hclr := applyTransaction_clears a w1 options sgn md env1.sendResult k key hshape
    have hr2 : revokeTokenAuthorities a options sgn env2 =
        revokeTokenAuthoritiesCore a w2 options sgn
          (applyTransaction md
            (revokeTokenAuthoritiesCore a w1 options sgn md env1.sendResult).2 true)
          env2.sendResult :=
      revoke_reduce a options sgn env2 w2 _ hw2 hp2 hmd2
    rw [hr2]
    have hstep2 := stepOf_null a w2 sgn options _ k hclr
    exact ⟨core_no_kind_instr a w2 options sgn _ env2.sendResult k (by rw [hstep2]),
      core_flag_false a w2 options sgn _ env2.sendResult k (by rw [hstep2])⟩

/-- Witness for C7: a concrete first call revokes both authorities; the
second call on the cleared chain state reports the mint flag false. -/
theorem revoke_already_null_idempotent_witness :
    (revokeTokenAuthorities "M" ⟨some true, some true⟩ none
        ⟨.ok "W", .ok (), some (applyTransaction ⟨some "W", some "W"⟩
          (revokeTokenAuthorities "M" ⟨some true, some true⟩ none
            ⟨.ok "W", .ok (), some ⟨some "W", some "W"⟩, .ok "SIG1"⟩).2 true),
         .ok "SIG2"⟩).1.revoked = some ⟨false, false⟩ ∧
    revokedFlagOf ⟨false, false⟩ .mintTokens = false := by
  refine ⟨rfl, ?_⟩
  exact ((revoke_already_null_idempotent "M" ⟨some true, some true⟩ none
    ⟨.ok "W", .ok (), some ⟨some "W", some "W"⟩, .ok "SIG1"⟩
    ⟨.ok "W", .ok (), some (applyTransaction ⟨some "W", some "W"⟩
      (revokeTokenAuthorities "M" ⟨some true, some true⟩ none
        ⟨.ok "W", .ok (), some ⟨some "W", some "W"⟩, .ok "SIG1"⟩).2 true),
     .ok "SIG2"⟩ "W" "W" ⟨some "W", some "W"⟩
    rfl rfl rfl rfl rfl rfl).2 .mintTokens ⟨true, true⟩ rfl rfl).2 ⟨false, false⟩ rfl

/-- C4: for every /revoke-authorities request with a valid (truthy
string) `mintAddress` and well-typed optional flags, the handler passes
`revokeTokenAuthorities` an options object with both flags set: each
equal to the supplied boolean when present and `true` when absent. -/
theorem revokeHandler_defaults_flags
    (a : String) (rma rfa : Option JVal)
    (collab : String → RevokeAuthorityOptions → RevocationResult)
    (ha : a ≠ "")
    (hrma : rma = none ∨ ∃ b, rma = some (.jBool b))
    (hrfa : rfa = none ∨ ∃ b, rfa = some (.jBool b)) :
    (revokeAuthoritiesHandler (some (.jStr a)) rma rfa collab).calledWith =
      some (a, ⟨some (flagOrTrue rma), some (flagOrTrue rfa)⟩) ∧
    (rma = none → flagOrTrue rma = true) ∧
    (∀ b, rma = some (.jBool b) → flagOrTrue rma = b) ∧
    (rfa = none → flagOrTrue rfa = true) ∧
    (∀ b, rfa = some (.jBool b) → flagOrTrue rfa = b) := by
  have hae : a.isEmpty = false := by
    cases hie : a.isEmpty with
    | false => rfl
    | true => exact absurd ((String.isEmpty_iff a).mp hie) ha
  have hcall : (revokeAuthoritiesHandler (some (.jStr a)) rma rfa collab).calledWith =
      some (a, ⟨some (flagOrTrue rma), some (flagOrTrue rfa)⟩) := by
    rcases hrma with h1 | ⟨b1, h1⟩ <;> rcases hrfa with h2 | ⟨b2, h2⟩ <;>
      subst h1 h2 <;>
      simp [revokeAuthoritiesHandler, fieldTruthy, jsTruthy, hae, typeOfOpt, typeOf,
        flagOrTrue, apply_ite RevokeOutcome.calledWith]
  refine ⟨hcall, fun h => by subst h; rfl, fun b h => by subst h; rfl,
    fun h => by subst h; rfl, fun b h => by subst h; rfl⟩

/-- Witness for C4: one absent flag and one supplied `false` flag. -/
theorem revokeHandler_defaults_flags_witness :
    (revokeAuthoritiesHandler (some (.jStr "Mint1")) none (some (.jBool false))
        (fun _ _ => ⟨true, some [], none, some ⟨false, false⟩⟩)).calledWith =
      some ("Mint1", ⟨some true, some false⟩) := by
  have h := revokeHandler_defaults_flags "Mint1" none (some (.jBool false))
    (fun _ _ => ⟨true, some [], none, some ⟨false, false⟩⟩)
    (by decide) (Or.inl rfl) (Or.inr ⟨false, rfl⟩)
  exact h.1

/-- C9: `revokeTokenAuthorities` never throws: every call resolves with
either a success value carrying signatures and revoked flags and no
error, or a failure value carrying only an error message; the HTTP layer
answers 500 with that error string on failure, and on success
substitutes `[]` and all-false flags for absent fields. -/
theorem revoke_never_throws_http_mapping
    (a : String) (options : RevokeAuthorityOptions) (sgn : Option String)
    (env : RevokeEnv) :
    (((revokeTokenAuthorities a options sgn env).1.success = true ∧
      (∃ l, (revokeTokenAuthorities a options sgn env).1.signatures = some l) ∧
      (∃ f, (revokeTokenAuthorities a options sgn env).1.revoked = some f) ∧
      (revokeTokenAuthorities a options sgn env).1.error = none) ∨
     ((revokeTokenAuthorities a options sgn env).1.success = false ∧
      (revokeTokenAuthorities a options sgn env).1.signatures = none ∧
      (revokeTokenAuthorities a options sgn env).1.revoked = none ∧
      (∃ m, (revokeTokenAuthorities a options sgn env).1.error = some m))) ∧
    (∀ (b : String) (collab : String → RevokeAuthorityOptions → RevocationResult),
      b ≠ "" →
      ((collab b ⟨some true, some true⟩).success = false →
        (revokeAuthoritiesHandler (some (.jStr b)) none none collab).status = 500 ∧
        (∀ m, (collab b ⟨some true, some true⟩).error = some m → m ≠ "" →
          (revokeAuthoritiesHandler (some (.jStr b)) none none collab).body =
            .failure m)) ∧
      ((collab b ⟨some true, some true⟩).success = true →
        (revokeAuthoritiesHandler (some (.jStr b)) none none collab).status = 200 ∧
        (revokeAuthoritiesHandler (some (.jStr b)) none none collab).body =
          .success b ((collab b ⟨some true, some true⟩).signatures.getD [])
            ((collab b ⟨some true, some true⟩).revoked.getD ⟨false, false⟩)
            "Authority revocation completed")) := by
  constructor
  · cases hw : env.walletLoad with
    | error m =>
      unfold revokeTokenAuthorities
      rw [hw]
      exact Or.inr ⟨rfl, rfl, rfl, m, rfl⟩
    | ok w =>
      cases hp : env.pubkeyParse with
      | error m =>
        unfold revokeTokenAuthorities
        rw [hw, hp]
        exact Or.inr ⟨rfl, rfl, rfl, m, rfl⟩
      | ok u =>
        cases hm : env.mintInfo with
        | none =>
          unfold revokeTokenAuthorities
          rw [hw, hp, hm]
          exact Or.inr ⟨rfl, rfl, rfl, "Could not fetch mint information", rfl⟩
        | some md =>
          rw [revoke_reduce a options sgn env w md hw hp hm]
          unfold revokeTokenAuthoritiesCore
          dsimp only
          split
          · cases env.sendResult with
            | ok sig => exact Or.inl ⟨rfl, ⟨[sig], rfl⟩, ⟨_, rfl⟩, rfl⟩
            | error m => exact Or.inr ⟨rfl, rfl, rfl, m, rfl⟩
          · exact Or.inl ⟨rfl, ⟨[], rfl⟩, ⟨_, rfl⟩, rfl⟩
  · intro b collab hb
    have hbe : b.isEmpty = false := by
      cases hie : b.isEmpty with
      | false => rfl
      | true => exact absurd ((String.isEmpty_iff b).mp hie) hb
    constructor
    · intro hsucc
      constructor
      · simp [revokeAuthoritiesHandler, fieldTruthy, jsTruthy, hbe, typeOfOpt,
          flagOrTrue, hsucc]
      · intro m hm hmne
        have hme : m.isEmpty = false := by
          cases hie : m.isEmpty with
          | false => rfl
          | true => exact absurd ((String.isEmpty_iff m).mp hie) hmne
        simp [revokeAuthoritiesHandler, fieldTruthy, jsTruthy, hbe, typeOfOpt,
          flagOrTrue, hsucc, hm, hme]
    · intro hsucc
      constructor <;>
        simp [revokeAuthoritiesHandler, fieldTruthy, jsTruthy, hbe, typeOfOpt,
          flagOrTrue, hsucc]

/-- Witness for C9: a failing collaborator (unreadable mint info) is
surfaced as 500 with its error string. -/
theorem revoke_never_throws_http_mapping_witness :
    (revokeAuthoritiesHandler (some (.jStr "M")) none none
        (fun addr opts => (revokeTokenAuthorities addr opts none
          ⟨.ok "W", .ok (), none, .ok "SIG"⟩).1)).status = 500 ∧
    (revokeAuthoritiesHandler (some (.jStr "M")) none none
        (fun addr opts => (revokeTokenAuthorities addr opts none
          ⟨.ok "W", .ok (), none, .ok "SIG"⟩).1)).body =
      .failure "Could not fetch mint information" := by
  have h := ((revoke_never_throws_http_mapping "M" ⟨some true, some true⟩ none
    ⟨.ok "W", .ok (), none, .ok "SIG"⟩).2 "M"
    (fun addr opts => (revokeTokenAuthorities addr opts none
      ⟨.ok "W", .ok (), none, .ok "SIG"⟩).1) (by decide)).1 rfl
  exact ⟨h.1, h.2 "Could not fetch mint information" rfl (by decide)⟩

/-- Witness for C1 at a concrete malformed input (a non-URL string). -/
theorem createToken_rejects_malformed_metadataUrl_witness :
    (createTokenHandler (some (.jStr "not-a-url"))
        ⟨.ok (), .payload .jNull, .error (.err "x")⟩).status = 400 ∧
    (createTokenHandler (some (.jStr "not-a-url"))
        ⟨.ok (), .payload .jNull, .error (.err "x")⟩).createCalled = false := by
  have h := createToken_rejects_malformed_metadataUrl (some (.jStr "not-a-url"))
    ⟨.ok (), .payload .jNull, .error (.err "x")⟩ (by decide)
  exact ⟨h.1, h.2.1⟩

end TokenApi
